import Mathlib

/-!
Verification development for the `onenote_export` crawler
(`src/onenote_export.py`).  The Python source is shallowly embedded:

* machine-level HTTP responses become the `HttpResp` structure;
* the duck-typed JSON dictionaries flowing through the crawler become the
  `Item` structure whose fields are all optional (a `none` field models a
  missing dictionary key, and indexing a missing key raises `PyErr.keyError`);
* fallible Python code (uncaught exceptions) is modelled with `Except PyErr`;
* the unbounded `while` loops of `get` and `get_json` take an explicit fuel
  argument, with `none` modelling non-termination within that fuel;
* the filesystem is an explicit `FS` value threaded through the functions
  that touch disk, and network activity is reported as an explicit count of
  fetch calls performed.

Wherever Lean allows it the definitions keep the names of the Python
functions they embed (`get`, `get_json`, `filter_items`, `download_page`,
`download_pages`, `download_image`, `download_attachment`).
-/

namespace OneNote

/-- Python exception kinds that the embedded code can raise. -/
inductive PyErr where
  | keyError : PyErr
  | typeError : PyErr
  | nameError : PyErr
  | runtimeError : PyErr
  | attributeError : PyErr
  | httpError : PyErr
deriving DecidableEq, Repr

/-- A duck-typed JSON record as returned by the Graph API list endpoints.
Every field is optional, mirroring the Python dictionaries: `none` models an
absent key.  `order` is modelled as `Int` (the API's fractional order values
only ever enter comparisons, and the claims under study use integral
orders). -/
structure Item where
  displayName : Option String := none
  title : Option String := none
  sectionsUrl : Option String := none
  sectionGroupsUrl : Option String := none
  pagesUrl : Option String := none
  contentUrl : Option String := none
  order : Option Int := none
  level : Option Int := none
deriving DecidableEq, Repr

/-- An HTTP response as seen by `get`: a status code, the parsed JSON body
(`jsonValue` is the `'value'` field, `jsonNext` the `'@odata.nextLink'`
field; `none` models an absent key), and the raw text/binary body. -/
structure HttpResp where
  status : Nat
  jsonValue : Option (List Item) := none
  jsonNext : Option String := none
  body : String := ""
deriving DecidableEq, Repr

/-- Result of the `get` fetch loop (src lines 72-92): `unavailable` models
the Python `return None` taken on status 500 and 504, `ok` a response
returned after `raise_for_status()` passed, and `fatal` an exception raised
by `raise_for_status()` (status 400-599 other than the earlier cases). -/
inductive GetOut where
  | unavailable : GetOut
  | fatal : GetOut
  | ok : HttpResp → GetOut
deriving DecidableEq, Repr

/-- The fixed rate-limit cooldown, `time.sleep(300)` at src line 79. -/
def cooldown : Nat := 300

/-- How `get` treats a non-429 response (src lines 80-92): 500 and 504
return `None`; `resp.raise_for_status()` raises for any remaining status in
400-599; otherwise the response is returned. -/
def resolve (r : HttpResp) : GetOut :=
  if r.status = 500 then GetOut.unavailable
  else if r.status = 504 then GetOut.unavailable
  else if 400 ≤ r.status ∧ r.status < 600 then GetOut.fatal
  else GetOut.ok r

/-- The `while True` retry loop of `get` (src lines 73-92).  `attempts i`
is the response the server gives to the i-th issue of the same request.
On 429 the loop sleeps `cooldown` seconds and retries; the returned list
records one sleep per retry.  `none` models running out of fuel, i.e. the
loop not terminating within `fuel` attempts. -/
def get_loop (attempts : Nat → HttpResp) : Nat → Nat → Option (GetOut × List Nat)
  | 0, _ => none
  | fuel + 1, i =>
      let r := attempts i
      if r.status = 429 then
        match get_loop attempts fuel (i + 1) with
        | none => none
        | some (o, sleeps) => some (o, cooldown :: sleeps)
      else
        some (resolve r, [])

/-- Embeds `get(graph_client, url, ...)` (src lines 72-92), abstracted over the
stream of responses the remote gives to successive attempts. -/
def get (attempts : Nat → HttpResp) (fuel : Nat) : Option (GetOut × List Nat) :=
  get_loop attempts fuel 0

/-- The body of the `while next_page` loop of `get_json` (src lines 60-69).
`net url i` is the response to the i-th attempt of fetching `url`.
The source runs `get(...).json()`: when `get` returned `None` (500/504)
this raises `AttributeError`; a missing `'value'` key raises
`RuntimeError`; a fatal status propagates the `requests` exception
(modelled as `httpError`).  The accumulator carries the item batches
collected so far and the number of completed fetch calls. -/
def get_json_loop (net : String → Nat → HttpResp) (getFuel : Nat) :
    Nat → Option String → List Item → Nat → Option (Except PyErr (List Item × Nat))
  | _, none, acc, calls => some (Except.ok (acc, calls))
  | 0, some _, _, _ => none
  | pageFuel + 1, some url, acc, calls =>
      match get (net url) getFuel with
      | none => none
      | some (GetOut.fatal, _) => some (Except.error PyErr.httpError)
      | some (GetOut.unavailable, _) => some (Except.error PyErr.attributeError)
      | some (GetOut.ok r, _) =>
          match r.jsonValue with
          | none => some (Except.error PyErr.runtimeError)
          | some items =>
              get_json_loop net getFuel pageFuel r.jsonNext (acc ++ items) (calls + 1)

/-- Embeds `get_json(graph_client, url, ...)` (src lines 60-69): paginate from
`url`, following `'@odata.nextLink'` until absent. -/
def get_json (net : String → Nat → HttpResp) (getFuel pageFuel : Nat) (url : String) :
    Option (Except PyErr (List Item × Nat)) :=
  get_json_loop net getFuel pageFuel (some url) [] 0

/-! ### Glob matching

Model of the standard library `fnmatch.fnmatch` used by `filter_items`
(src line 168): shell-style glob patterns with `*`, `?`, and bracket
character classes (`[seq]`, `[!seq]`, ranges `a-b`; an unterminated `[`
is a literal bracket; the whole name must match). -/

/-- One token of a glob pattern. -/
inductive GlobTok where
  | star : GlobTok
  | question : GlobTok
  | lit : Char → GlobTok
  | cls : Bool → List Char → GlobTok
deriving DecidableEq, Repr

/-- Scan the raw contents of a bracket class up to the closing `]`;
returns the contents and the rest of the pattern, or `none` when the
class is unterminated. -/
def scanClass (acc : List Char) : List Char → Option (List Char × List Char)
  | [] => none
  | c :: rest =>
      if c = ']' then some (acc.reverse, rest) else scanClass (c :: acc) rest

/-- Scan a class body, treating a leading `]` as a literal member. -/
def scanClassBody : List Char → Option (List Char × List Char)
  | [] => none
  | c :: r2 =>
      if c = ']' then scanClass [']'] r2 else scanClass [] (c :: r2)

/-- Whether the class body is negated (`[!...]`), and the body. -/
def classNeg : List Char → Bool × List Char
  | [] => (false, [])
  | c :: rest =>
      if c = '!' then (true, rest) else (false, c :: rest)

/-- Parse a bracket class (the part after `[`): an optional leading `!`
negates, and a `]` in first position is a literal member. -/
def parseClass (l : List Char) : Option (Bool × List Char × List Char) :=
  (scanClassBody (classNeg l).2).map (fun p => ((classNeg l).1, p.1, p.2))

theorem scanClass_length {l : List Char} :
    ∀ {acc es rest}, scanClass acc l = some (es, rest) → rest.length < l.length := by
  induction l with
  | nil => intro acc es rest h; simp [scanClass] at h
  | cons c cs ih =>
      intro acc es rest h
      rw [scanClass] at h
      by_cases hc : c = ']'
      · rw [if_pos hc] at h
        cases h
        simp
      · rw [if_neg hc] at h
        have := ih h
        simp
        omega

theorem scanClassBody_length {l1 es rest} (h : scanClassBody l1 = some (es, rest)) :
    rest.length < l1.length := by
  cases l1 with
  | nil => simp [scanClassBody] at h
  | cons c r2 =>
      rw [scanClassBody] at h
      by_cases hc : c = ']'
      · rw [if_pos hc] at h
        have := scanClass_length h
        simp
        omega
      · rw [if_neg hc] at h
        exact scanClass_length h

theorem classNeg_length (l : List Char) : (classNeg l).2.length ≤ l.length := by
  cases l with
  | nil => simp [classNeg]
  | cons c rest =>
      rw [classNeg]
      by_cases hc : c = '!'
      · rw [if_pos hc]; simp
      · rw [if_neg hc]

theorem parseClass_length {l neg es rest} (h : parseClass l = some (neg, es, rest)) :
    rest.length < l.length := by
  unfold parseClass at h
  rw [Option.map_eq_some'] at h
  obtain ⟨p, hp, he⟩ := h
  cases he
  have hb := scanClassBody_length hp
  have := classNeg_length l
  omega

/-- Tokenizer worker, structurally recursive on a fuel argument (each
step consumes at least one pattern character, so `l.length` fuel always
suffices; the fuel keeps the definition computable by the kernel). -/
def tokenizeF : Nat → List Char → List GlobTok
  | 0, _ => []
  | _, [] => []
  | fuel + 1, c :: r =>
      if c = '*' then GlobTok.star :: tokenizeF fuel r
      else if c = '?' then GlobTok.question :: tokenizeF fuel r
      else if c = '[' then
        match parseClass r with
        | some (neg, es, rest) => GlobTok.cls neg es :: tokenizeF fuel rest
        | none => GlobTok.lit '[' :: tokenizeF fuel r
      else GlobTok.lit c :: tokenizeF fuel r

/-- Tokenize a glob pattern; an unterminated `[` becomes a literal. -/
def tokenize (l : List Char) : List GlobTok :=
  tokenizeF l.length l

/-- Elements of a bracket class, pairing each member with itself and each
range `a-b` with its bounds. -/
def classElems : List Char → List (Char × Char)
  | a :: '-' :: b :: rest => (a, b) :: classElems rest
  | a :: rest => (a, a) :: classElems rest
  | [] => []

/-- Membership of a character in a bracket class. -/
def inClass (es : List Char) (c : Char) : Bool :=
  (classElems es).any (fun p => decide (p.1 ≤ c) && decide (c ≤ p.2))

/-- Glob matching worker, structurally recursive on a fuel argument
(every recursive call strictly decreases the combined length of pattern
and string, so `ps.length + cs.length + 1` fuel always suffices; the fuel
keeps the definition computable by the kernel). -/
def matchToksF : Nat → List GlobTok → List Char → Bool
  | 0, _, _ => false
  | fuel + 1, ps, cs =>
      match ps, cs with
      | [], [] => true
      | [], _ :: _ => false
      | GlobTok.star :: ps2, [] => matchToksF fuel ps2 []
      | GlobTok.star :: ps2, c :: cs2 =>
          matchToksF fuel ps2 (c :: cs2) || matchToksF fuel (GlobTok.star :: ps2) cs2
      | GlobTok.question :: ps2, _ :: cs2 => matchToksF fuel ps2 cs2
      | GlobTok.question :: _, [] => false
      | GlobTok.lit a :: ps2, c :: cs2 => (a = c) && matchToksF fuel ps2 cs2
      | GlobTok.lit _ :: _, [] => false
      | GlobTok.cls neg es :: ps2, c :: cs2 =>
          (inClass es c != neg) && matchToksF fuel ps2 cs2
      | GlobTok.cls _ _ :: _, [] => false

/-- Full-string glob match of a token list against a character list. -/
def matchToks (ps : List GlobTok) (cs : List Char) : Bool :=
  matchToksF (ps.length + cs.length + 1) ps cs

/-- Model of `fnmatch.fnmatch(nm, pat)` (src line 168): whole-name
shell-glob match. -/
def fnmatch (nm pat : String) : Bool :=
  matchToks (tokenize pat.toList) nm.toList

/-- Model of Python's `str.lower()` (src line 168) on the ASCII range. -/
def pyLower (s : String) : String :=
  String.mk (s.toList.map Char.toLower)

/-- Name under which `filter_items` matches an item (src line 168):
`item.get('displayName', item.get('title'))`. -/
def itemName (it : Item) : Option String :=
  match it.displayName with
  | some n => some n
  | none => it.title

/-- The list comprehension of `filter_items` (src lines 167-168): keep the
items whose lower-cased name glob-matches the lower-cased pattern; an item
with neither `displayName` nor `title` makes `.lower()` raise
`AttributeError` on `None`. -/
def filterNames (pat : String) : List Item → Except PyErr (List Item)
  | [] => Except.ok []
  | it :: its =>
      match itemName it with
      | none => Except.error PyErr.attributeError
      | some nm =>
          (filterNames pat its).map
            (fun rest => if fnmatch (pyLower nm) (pyLower pat) then it :: rest else rest)

/-- Embeds `filter_items(items, select, ...)` (src lines 164-171): with no
remaining segments, pass through; otherwise keep the case-insensitive glob
matches of the first segment and consume it. -/
def filter_items (items : List Item) (select : List String) :
    Except PyErr (List Item × List String) :=
  match select with
  | [] => Except.ok (items, [])
  | s :: rest => (filterNames s items).map (fun l => (l, rest))

/-- The child-endpoint fetches issued by the loop of `download_notebooks`
(src lines 181-189): after filtering, each surviving notebook has its
`sectionsUrl` and `sectionGroupsUrl` list endpoints fetched (indexing a
missing key raises `KeyError`); notebooks removed by the filter contribute
no fetches. -/
def notebook_child_fetches (notebooks : List Item) (select : List String) :
    Except PyErr (List String) :=
  match filter_items notebooks select with
  | Except.error e => Except.error e
  | Except.ok (nbs, _) =>
      nbs.foldr
        (fun nb acc =>
          match nb.displayName, nb.sectionsUrl, nb.sectionGroupsUrl, acc with
          | _, _, _, Except.error e => Except.error e
          | none, _, _, _ => Except.error PyErr.keyError
          | _, none, _, _ => Except.error PyErr.keyError
          | _, _, none, _ => Except.error PyErr.keyError
          | some _, some su, some gu, Except.ok urls => Except.ok (su :: gu :: urls))
        (Except.ok [])

/-! ### Path segments and name sanitization

`pathvalidate.sanitize_filename` / `sanitize_filepath` are external
library calls (src lines 19-20, 221-222); they are modelled here by their
documented behaviour of deleting the characters that are invalid in a file
name (respectively in a file path, which keeps the separator `/`). -/

/-- Characters `pathvalidate.sanitize_filename` removes from a file name. -/
def invalidFilenameChars : List Char :=
  ['/', '\\', ':', '*', '?', '"', '<', '>', '|']

/-- Characters `pathvalidate.sanitize_filepath` removes from a path
(the separator `/` is kept, since the argument is a path). -/
def invalidFilepathChars : List Char :=
  ['\\', ':', '*', '?', '"', '<', '>', '|']

/-- Model of `pathvalidate.sanitize_filename` (src line 221). -/
def sanitize_filename (s : String) : String :=
  String.mk (s.toList.filter (fun c => ¬ c ∈ invalidFilenameChars))

/-- Model of `pathvalidate.sanitize_filepath` (src line 222). -/
def sanitize_filepath (s : String) : String :=
  String.mk (s.toList.filter (fun c => ¬ c ∈ invalidFilepathChars))

/-- The sanitized page title of `download_pages` (src lines 221-222):
`sanitize_filepath(sanitize_filename(title))`. -/
def page_title_sanitized (title : String) : String :=
  sanitize_filepath (sanitize_filename title)

/-- Notebook output directory segment, src line 188: the *raw* display
name with the `.SECTIONS` suffix appended. -/
def notebook_dir_segment (displayName : String) : String :=
  displayName ++ ".SECTIONS"

/-- Section-group output directory segment, src line 199. -/
def section_group_dir_segment (displayName : String) : String :=
  displayName ++ ".SECTIONS"

/-- Section output directory segment, src line 209: the raw display name
with the `.NOTES` suffix appended. -/
def section_dir_segment (displayName : String) : String :=
  displayName ++ ".NOTES"

/-! ### Filesystem model

The output tree is the only mutable state; it is modelled as the list of
files (path paired with content) and the list of directories created. -/

/-- A directory path is a list of segments; `pathlib`'s `/` drops empty
segments (`Path('a') / '' == Path('a')`). -/
def pathJoin (dir : List String) (seg : String) : List String :=
  if seg = "" then dir else dir ++ [seg]

/-- Flatten a segment list to the textual path. -/
def joinPath : List String → String
  | [] => ""
  | [s] => s
  | s :: rest => s ++ "/" ++ joinPath rest

/-- The filesystem state: files written (with contents) and directories
created. -/
structure FS where
  files : List (String × String) := []
  dirs : List String := []
deriving DecidableEq, Repr

/-- Model of `Path.exists()` on a file path. -/
def FS.hasFile (fs : FS) (p : String) : Bool :=
  fs.files.any (fun f => f.1 = p)

/-- Model of `open(p, "w").write(c)`: create or overwrite the file. -/
def FS.writeFile (fs : FS) (p c : String) : FS :=
  if fs.hasFile p then
    { fs with files := fs.files.map (fun f => if f.1 = p then (p, c) else f) }
  else
    { fs with files := fs.files ++ [(p, c)] }

/-- Model of `Path.mkdir(exist_ok=True)`. -/
def FS.mkdir (fs : FS) (d : String) : FS :=
  if fs.dirs.contains d then fs else { fs with dirs := fs.dirs ++ [d] }

/-- Model of `Path.mkdir(parents=True, exist_ok=True)`: create the directory and
every ancestor. -/
def FS.mkdirParents (fs : FS) (path : List String) : FS :=
  (List.range path.length).foldl
    (fun acc i => acc.mkdir (joinPath (path.take (i + 1)))) fs

/-! ### Page materializer -/

/-- Embeds `download_page(graph_client, page_url, path, page_title, ...)`
(src lines 234-302).  `contentFetch` is the outcome of the `get` call on
the page's content URL; `render` abstracts the cosmetic HTML rewrite of
src lines 244-299 (out of scope per the spec); `attach` abstracts the
`download_attachments` pass (modelled separately below), returning the
updated filesystem, the rewritten content, and the number of fetch calls
it performed.  The result pairs the final filesystem with the total
number of fetch calls issued. -/
def download_page (contentFetch : GetOut) (render : String → String)
    (attach : FS → String → FS × String × Nat)
    (path : List String) (page_title : String) (fs : FS) :
    Except PyErr (FS × Nat) :=
  let out_html := joinPath (path ++ [page_title ++ ".html"])
  if fs.hasFile out_html then
    Except.ok (fs, 0)
  else
    let fs1 := fs.mkdirParents path
    match contentFetch with
    | GetOut.fatal => Except.error PyErr.httpError
    | GetOut.unavailable => Except.ok (fs1, 1)
    | GetOut.ok r =>
        let content := render r.body
        let att := attach fs1 content
        Except.ok ((att.1.writeFile out_html att.2.1), 1 + att.2.2)

/-! ### Attachment resolver

`download_attachments` (src lines 95-157) scans the rewritten HTML for
`<img .../>` and `<object .../>` tags and replaces each through
`download_image` / `download_attachment`.  The HTML scanning itself
(`re.sub` + `HTMLParser`) is external; the resolver is modelled on the
sequence of matched tags, each given as its original text together with
its parsed attribute dictionary. -/

/-- A matched tag: its original text and its attribute dictionary. -/
structure Tag where
  original : String
  props : List (String × String)
deriving DecidableEq, Repr

/-- Dictionary lookup (`props.get(k)`); attribute keys are assumed
distinct, as produced by the HTML parser. -/
def dictGet (props : List (String × String)) (k : String) : Option String :=
  (props.find? (fun kv => kv.1 = k)).map (fun kv => kv.2)

/-- Dictionary update `props[k] = v`, preserving insertion order. -/
def dictSet (props : List (String × String)) (k v : String) :
    List (String × String) :=
  if (props.find? (fun kv => kv.1 = k)).isSome then
    props.map (fun kv => if kv.1 = k then (k, v) else kv)
  else
    props ++ [(k, v)]

/-- What a tag substitution returns: either the original text unchanged,
or a regenerated `<img>` / `<object>` element with the given attributes
(`generate_html`, src lines 103-105). -/
inductive TagResult where
  | unchanged : String → TagResult
  | imgTag : List (String × String) → TagResult
  | objectTag : List (String × String) → TagResult
deriving DecidableEq, Repr

/-- Model of Python's `s.split("/")[-1]`: the suffix after the last
separator (the whole string when no separator occurs). -/
def lastSlashComponent (s : String) : String :=
  String.mk ((s.toList.reverse.takeWhile (fun c => ¬ c = '/')).reverse)

/-- The URL and local file name `download_image` derives (src lines
113-115).  Python evaluates `props['src']` and `props['data-src-type']`
eagerly as the defaults of `.get`, so their absence raises `KeyError`
even when the `data-fullres-src*` keys are present.  `extractId` models
the `re.sub(r'.*\-(.+)?\!1-(.+?)\/\$value', r'\1', image_url)` step that
extracts the content identifier from the URL. -/
def image_fields (extractId : String → String) (tag : Tag) :
    Except PyErr (String × String) :=
  match dictGet tag.props "src" with
  | none => Except.error PyErr.keyError
  | some defaultUrl =>
      match dictGet tag.props "data-src-type" with
      | none => Except.error PyErr.keyError
      | some defaultTy =>
          let image_url := (dictGet tag.props "data-fullres-src").getD defaultUrl
          let tyFull := (dictGet tag.props "data-fullres-src-type").getD defaultTy
          let image_type := lastSlashComponent tyFull
          Except.ok (image_url, extractId image_url ++ "." ++ image_type)

/-- The attribute rewrite applied to a localized image (src lines
127-128): point `src` at the local copy and drop every key containing
`data-fullres-src`. -/
def imageProps (props : List (String × String)) (dir_name file_name : String) :
    List (String × String) :=
  (dictSet props "src" (dir_name ++ "/" ++ file_name)).filter
    (fun kv => ¬ ("data-fullres-src".toList.IsInfix kv.1.toList))

/-- Embeds `download_image(tag_match)` (src lines 107-129).  `fetch url` is the
result of `get` on the binary URL, `none` modelling the unavailable
signal.  Returns the filesystem, the substitution result, and the number
of fetch calls performed. -/
def download_image (fetch : String → Option String) (extractId : String → String)
    (out_dir dir_name : String) (fs : FS) (tag : Tag) :
    Except PyErr (FS × TagResult × Nat) :=
  match image_fields extractId tag with
  | Except.error e => Except.error e
  | Except.ok (image_url, file_name) =>
      let attachment_dir := out_dir ++ "/" ++ dir_name
      if fs.hasFile (attachment_dir ++ "/" ++ file_name) then
        Except.ok (fs, TagResult.imgTag (imageProps tag.props dir_name file_name), 0)
      else
        match fetch image_url with
        | none => Except.ok (fs, TagResult.unchanged tag.original, 1)
        | some img =>
            let fs2 := (fs.mkdir attachment_dir).writeFile
              (attachment_dir ++ "/" ++ file_name) img
            Except.ok (fs2, TagResult.imgTag (imageProps tag.props dir_name file_name), 1)

/-- Embeds `download_attachment(tag_match)` (src lines 131-152): the object tag
carries the binary URL in `data` and the declared file name in
`data-attachment`; after the idempotence gate or a successful download,
`data` is rewritten to the local relative path. -/
def download_attachment (fetch : String → Option String)
    (out_dir dir_name : String) (fs : FS) (tag : Tag) :
    Except PyErr (FS × TagResult × Nat) :=
  match dictGet tag.props "data" with
  | none => Except.error PyErr.keyError
  | some data_url =>
      match dictGet tag.props "data-attachment" with
      | none => Except.error PyErr.keyError
      | some file_name =>
          let attachment_dir := out_dir ++ "/" ++ dir_name
          if fs.hasFile (attachment_dir ++ "/" ++ file_name) then
            Except.ok (fs,
              TagResult.objectTag (dictSet tag.props "data" (dir_name ++ "/" ++ file_name)), 0)
          else
            match fetch data_url with
            | none => Except.ok (fs, TagResult.unchanged tag.original, 1)
            | some data =>
                let fs2 := (fs.mkdir attachment_dir).writeFile
                  (attachment_dir ++ "/" ++ file_name) data
                Except.ok (fs2,
                  TagResult.objectTag (dictSet tag.props "data" (dir_name ++ "/" ++ file_name)), 1)

/-- The sequential `re.sub` pass over all image tags of one or more pages
sharing the same attachment directory (src line 154): each substitution
sees the filesystem left by the previous one. -/
def download_images (fetch : String → Option String) (extractId : String → String)
    (out_dir dir_name : String) (fs : FS) :
    List Tag → Except PyErr (FS × List TagResult × Nat)
  | [] => Except.ok (fs, [], 0)
  | t :: ts =>
      match download_image fetch extractId out_dir dir_name fs t with
      | Except.error e => Except.error e
      | Except.ok (fs1, r, n) =>
          match download_images fetch extractId out_dir dir_name fs1 ts with
          | Except.error e => Except.error e
          | Except.ok (fs2, rs, m) => Except.ok (fs2, r :: rs, n + m)

/-- The sequential pass over object/attachment tags (src line 155). -/
def download_objects (fetch : String → Option String)
    (out_dir dir_name : String) (fs : FS) :
    List Tag → Except PyErr (FS × List TagResult × Nat)
  | [] => Except.ok (fs, [], 0)
  | t :: ts =>
      match download_attachment fetch out_dir dir_name fs t with
      | Except.error e => Except.error e
      | Except.ok (fs1, r, n) =>
          match download_objects fetch out_dir dir_name fs1 ts with
          | Except.error e => Except.error e
          | Except.ok (fs2, rs, m) => Except.ok (fs2, r :: rs, n + m)

/-! ### Page ordering and outline-nesting walk (`download_pages`) -/

/-- Comparison of two `(order, page)` tuples, as Python's tuple `<` does
during `sorted(...)` (src line 214): the orders are compared first and,
when they are equal, the comparison falls through to the page
dictionaries, which raises `TypeError` (dicts are unorderable). -/
def cmpKeyed (a b : Int × Item) : Except PyErr Bool :=
  if a.1 = b.1 then Except.error PyErr.typeError
  else Except.ok (decide (a.1 < b.1))

/-- Insertion of a keyed page into an already sorted list, propagating
the `TypeError` of an order tie. -/
def insertKeyed (x : Int × Item) : List (Int × Item) → Except PyErr (List (Int × Item))
  | [] => Except.ok [x]
  | y :: ys =>
      match cmpKeyed x y with
      | Except.error e => Except.error e
      | Except.ok true => Except.ok (x :: y :: ys)
      | Except.ok false =>
          match insertKeyed x ys with
          | Except.error e => Except.error e
          | Except.ok zs => Except.ok (y :: zs)

/-- Comparison-based sort of the keyed page list, modelling
`sorted([(page['order'], page) for page in pages])` (src line 214): it
succeeds exactly like Python's sort does when all orders are distinct,
and raises `TypeError` when it must order two pages with equal `order`. -/
def sortKeyed : List (Int × Item) → Except PyErr (List (Int × Item))
  | [] => Except.ok []
  | x :: xs =>
      match sortKeyed xs with
      | Except.error e => Except.error e
      | Except.ok s => insertKeyed x s

/-- Build the `(order, page)` pairs, raising `KeyError` when a page lacks
the `order` key (src line 214). -/
def keyPages : List Item → Except PyErr (List (Int × Item))
  | [] => Except.ok []
  | p :: ps =>
      match p.order with
      | none => Except.error PyErr.keyError
      | some o =>
          match keyPages ps with
          | Except.error e => Except.error e
          | Except.ok rest => Except.ok ((o, p) :: rest)

/-- The mutable state of the level-anchor walk (src lines 215-218):
`level_dirs[1]`, `level_dirs[2]` (both initialized to the empty string),
and the `page_dir` of the previous iteration (`none` before the first
iteration; reusing it then is Python's `NameError`). -/
structure WalkSt where
  dir1 : String := ""
  dir2 : String := ""
  lastDir : Option (List String) := none
deriving DecidableEq, Repr

/-- One iteration of the `for order, page in pages` loop (src lines
219-232): sanitize the title, pick the materialization directory from the
page's level, and update the anchors.  A level other than 0/1/2 leaves
`page_dir` unassigned, so the first such page raises `NameError`. -/
def walkStep (base : List String) (st : WalkSt) (p : Item) :
    Except PyErr (WalkSt × (List String × String)) :=
  match p.level with
  | none => Except.error PyErr.keyError
  | some lv =>
      match p.title with
      | none => Except.error PyErr.keyError
      | some t0 =>
          let t := page_title_sanitized t0
          if lv = 0 then
            Except.ok ({ st with dir1 := t ++ ".NOTES", lastDir := some base }, (base, t))
          else if lv = 1 then
            let dir := pathJoin base st.dir1
            Except.ok ({ st with dir2 := t ++ ".NOTES", lastDir := some dir }, (dir, t))
          else if lv = 2 then
            let dir := pathJoin (pathJoin base st.dir1) st.dir2
            Except.ok ({ st with lastDir := some dir }, (dir, t))
          else
            match st.lastDir with
            | none => Except.error PyErr.nameError
            | some dir => Except.ok (st, (dir, t))

/-- The whole loop of src lines 219-232, collecting for each page the
`(page_dir, page_title)` pair handed to `download_page`. -/
def walkPages (base : List String) (st : WalkSt) :
    List Item → Except PyErr (List (List String × String))
  | [] => Except.ok []
  | p :: ps =>
      match walkStep base st p with
      | Except.error e => Except.error e
      | Except.ok (st2, out) =>
          match walkPages base st2 ps with
          | Except.error e => Except.error e
          | Except.ok rest => Except.ok (out :: rest)

/-- Embeds `download_pages(graph_client, pages, path, select, ...)`
(src lines 212-232): filter, key by `order`, sort globally, then walk the
sorted pages; the result is the list of materialization targets, in
processing order. -/
def download_pages (pages : List Item) (base : List String) (select : List String) :
    Except PyErr (List (List String × String)) :=
  match filter_items pages select with
  | Except.error e => Except.error e
  | Except.ok (pgs, _) =>
      match keyPages pgs with
      | Except.error e => Except.error e
      | Except.ok keyed =>
          match sortKeyed keyed with
          | Except.error e => Except.error e
          | Except.ok sortedKeyed =>
              walkPages base {} (sortedKeyed.map (fun kp => kp.2))

/-! ## Theorems -/

/-- Behaviour of the `get` retry loop starting at attempt `i`: after `k`
consecutive 429 responses it settles on the first non-429 response,
having slept the fixed cooldown once per retry. -/
theorem get_loop_run (attempts : Nat → HttpResp) :
    ∀ (k i fuel : Nat),
      (∀ j, j < k → (attempts (i + j)).status = 429) →
      (attempts (i + k)).status ≠ 429 → k < fuel →
      get_loop attempts fuel i = some (resolve (attempts (i + k)), List.replicate k cooldown) := by
  intro k
  induction k with
  | zero =>
      intro i fuel h429 hstop hfuel
      match fuel, hfuel with
      | f + 1, _ =>
          rw [get_loop]
          rw [if_neg (by simpa using hstop)]
          simp
  | succ k ih =>
      intro i fuel h429 hstop hfuel
      match fuel, hfuel with
      | f + 1, _ =>
          rw [get_loop]
          rw [if_pos (by simpa using h429 0 (Nat.succ_pos k))]
          have hrec := ih (i + 1) f
            (fun j hj => by
              have := h429 (j + 1) (by omega)
              simpa [Nat.add_assoc, Nat.add_comm 1 j] using this)
            (by
              have : i + 1 + k = i + (k + 1) := by omega
              rw [this]; exact hstop)
            (by omega)
          rw [hrec]
          have : i + 1 + k = i + (k + 1) := by omega
          rw [this]
          rfl

/-- C6: the fetch client retries exactly on HTTP 429, sleeping the fixed
300-second cooldown before each reissue of the same request, with no cap
and no backoff growth, and terminates exactly when a non-429 status
arrives; every non-success (4xx/5xx) status other than 429, 500 and 504
raises fatally. -/
theorem get_retries_only_429_fixed_cooldown :
    (∀ (attempts : Nat → HttpResp) (k fuel : Nat),
        (∀ j, j < k → (attempts j).status = 429) →
        (attempts k).status ≠ 429 → k < fuel →
        get attempts fuel = some (resolve (attempts k), List.replicate k cooldown))
    ∧ cooldown = 300
    ∧ (∀ attempts : Nat → HttpResp,
        (∀ i, (attempts i).status = 429) → ∀ fuel, get attempts fuel = none)
    ∧ (∀ r : HttpResp, 400 ≤ r.status → r.status < 600 →
        r.status ≠ 429 → r.status ≠ 500 → r.status ≠ 504 → resolve r = GetOut.fatal)
    ∧ (∀ r : HttpResp, r.status = 500 ∨ r.status = 504 → resolve r = GetOut.unavailable) := by
  refine ⟨?_, rfl, ?_, ?_, ?_⟩
  · intro attempts k fuel h429 hstop hfuel
    have := get_loop_run attempts k 0 fuel (by simpa using h429) (by simpa using hstop) hfuel
    simpa [get] using this
  · intro attempts hall fuel
    rw [get]
    have : ∀ (f i : Nat), get_loop attempts f i = none := by
      intro f
      induction f with
      | zero => intro i; rfl
      | succ f ih =>
          intro i
          rw [get_loop, if_pos (hall i), ih (i + 1)]
    exact this fuel 0
  · intro r h1 h2 h3 h4 h5
    unfold resolve
    rw [if_neg h4, if_neg h5, if_pos ⟨h1, h2⟩]
  · intro r h
    unfold resolve
    rcases h with h | h
    · rw [if_pos h]
    · by_cases h5 : r.status = 500
      · rw [if_pos h5]
      · rw [if_neg h5, if_pos h]

/-- Witness for C6: two 429 responses followed by a 200 yield the 200
response after exactly two fixed 300-second sleeps. -/
theorem get_retries_only_429_fixed_cooldown_witness :
    (∀ j, j < 2 → ((fun i => if i < 2 then { status := 429 : HttpResp }
        else { status := 200, body := "ok" }) j).status = 429)
    ∧ ((fun i => if i < 2 then { status := 429 : HttpResp }
        else { status := 200, body := "ok" }) 2).status ≠ 429
    ∧ get (fun i => if i < 2 then { status := 429 } else { status := 200, body := "ok" }) 3
        = some (GetOut.ok { status := 200, body := "ok" }, [300, 300]) := by
  refine ⟨by decide, by decide, ?_⟩
  have := get_retries_only_429_fixed_cooldown.1
    (fun i => if i < 2 then { status := 429 } else { status := 200, body := "ok" })
    2 3 (by decide) (by decide) (by decide)
  simpa [resolve, cooldown] using this

/-- Creating a directory never touches the file list. -/
theorem FS.mkdir_files (fs : FS) (d : String) : (fs.mkdir d).files = fs.files := by
  unfold FS.mkdir
  split <;> rfl

/-- Creating a directory with its ancestors never touches the file list. -/
theorem FS.mkdirParents_files (fs : FS) (path : List String) :
    (fs.mkdirParents path).files = fs.files := by
  unfold FS.mkdirParents
  generalize List.range path.length = idx
  induction idx generalizing fs with
  | nil => rfl
  | cons i rest ih =>
      rw [List.foldl_cons, ih, FS.mkdir_files]

/-- C1 (amended): a fetch that receives HTTP 500 or 504 returns the
Unavailable signal; the page materializer and both attachment resolvers
then skip the resource without writing any output file and without
raising; but the pagination reader is an exception: when its list fetch
returns Unavailable, `get_json` raises `AttributeError` (calling
`.json()` on `None`), aborting the traversal. -/
theorem unavailable_skips_page_and_attachments_but_crashes_get_json :
    (∀ (attempts : Nat → HttpResp) (fuel : Nat),
        (attempts 0).status = 500 ∨ (attempts 0).status = 504 →
        get attempts (fuel + 1) = some (GetOut.unavailable, []))
    ∧ (∀ (render : String → String) (attach : FS → String → FS × String × Nat)
          (path : List String) (title : String) (fs : FS),
        fs.hasFile (joinPath (path ++ [title ++ ".html"])) = false →
        download_page GetOut.unavailable render attach path title fs
            = Except.ok (fs.mkdirParents path, 1)
          ∧ (fs.mkdirParents path).files = fs.files)
    ∧ (∀ (fetch : String → Option String) (extractId : String → String)
          (out_dir dir_name : String) (fs : FS) (tag : Tag) (url fn : String),
        image_fields extractId tag = Except.ok (url, fn) →
        fs.hasFile (out_dir ++ "/" ++ dir_name ++ "/" ++ fn) = false →
        fetch url = none →
        download_image fetch extractId out_dir dir_name fs tag
          = Except.ok (fs, TagResult.unchanged tag.original, 1))
    ∧ (∀ (fetch : String → Option String) (out_dir dir_name : String)
          (fs : FS) (tag : Tag) (url fn : String),
        dictGet tag.props "data" = some url →
        dictGet tag.props "data-attachment" = some fn →
        fs.hasFile (out_dir ++ "/" ++ dir_name ++ "/" ++ fn) = false →
        fetch url = none →
        download_attachment fetch out_dir dir_name fs tag
          = Except.ok (fs, TagResult.unchanged tag.original, 1))
    ∧ (∀ (net : String → Nat → HttpResp) (getFuel pageFuel : Nat) (url : String)
          (sleeps : List Nat),
        get (net url) getFuel = some (GetOut.unavailable, sleeps) →
        get_json net getFuel (pageFuel + 1) url = some (Except.error PyErr.attributeError)) := by
  refine ⟨?_, ?_, ?_, ?_, ?_⟩
  · intro attempts fuel h
    rw [get, get_loop]
    have h429 : ¬ (attempts 0).status = 429 := by rcases h with h | h <;> omega
    rw [if_neg h429]
    rcases h with h | h <;> simp [resolve, h]
  · intro render attach path title fs hno
    refine ⟨?_, FS.mkdirParents_files fs path⟩
    unfold download_page
    simp only [hno, Bool.false_eq_true, if_false]
  · intro fetch extractId out_dir dir_name fs tag url fn hf hno hfetch
    unfold download_image
    rw [hf]
    simp only [hno, Bool.false_eq_true, if_false, hfetch]
  · intro fetch out_dir dir_name fs tag url fn hd hda hno hfetch
    unfold download_attachment
    rw [hd, hda]
    simp only [hno, Bool.false_eq_true, if_false, hfetch]
  · intro net getFuel pageFuel url sleeps hget
    unfold get_json get_json_loop
    rw [hget]

/-- Refutation of C1 as stated: when the list endpoint itself answers 500,
the fetch does return the Unavailable signal, but the pagination reader
raises an exception (`None.json()` is an `AttributeError`) instead of
skipping — the traversal aborts. -/
theorem get_json_raises_on_unavailable_counterexample :
    get (fun _ => { status := 500 }) 1 = some (GetOut.unavailable, [])
    ∧ get_json (fun _ _ => { status := 500 }) 1 1 "url"
        = some (Except.error PyErr.attributeError) := by
  exact ⟨rfl, rfl⟩

/-- Witness for C1 (amended): a concrete page skip — the output file is
absent, the content fetch is unavailable, and the materializer returns
with one fetch performed, no file written and no exception. -/
theorem unavailable_skip_witness :
    (FS.hasFile {} (joinPath (["d"] ++ ["t" ++ ".html"])) = false)
    ∧ download_page GetOut.unavailable (fun s => s) (fun fs c => (fs, c, 0)) ["d"] "t" {}
        = Except.ok (FS.mkdirParents {} ["d"], 1)
    ∧ (FS.mkdirParents {} ["d"]).files = ([] : List (String × String)) := by
  refine ⟨by decide, ?_⟩
  have := unavailable_skips_page_and_attachments_but_crashes_get_json.2.1
    (fun s => s) (fun fs c => (fs, c, 0)) ["d"] "t" {} (by decide)
  exact ⟨this.1, by rw [this.2]⟩

/-- A response chain: fetching `url` (through `get`) yields a success
whose `'value'` field is the first batch and whose `'@odata.nextLink'`
leads through the remaining batches, the last response carrying no link. -/
def chainsTo (net : String → Nat → HttpResp) (getFuel : Nat) :
    String → List (List Item) → Bool
  | _, [] => false
  | url, b :: bs =>
      match get (net url) getFuel with
      | some (GetOut.ok r, _) =>
          (r.jsonValue == some b) &&
          (match bs with
           | [] => r.jsonNext == none
           | _ :: _ =>
               match r.jsonNext with
               | some u => chainsTo net getFuel u bs
               | none => false)
      | _ => false

/-- The pagination loop consumes a response chain batch by batch,
concatenating in arrival order and counting one fetch per batch. -/
theorem get_json_loop_chain (net : String → Nat → HttpResp) (getFuel : Nat) :
    ∀ (bs : List (List Item)) (url : String) (acc : List Item) (calls pf : Nat),
      chainsTo net getFuel url bs = true → bs.length ≤ pf →
      get_json_loop net getFuel pf (some url) acc calls
        = some (Except.ok (acc ++ bs.flatten, calls + bs.length)) := by
  intro bs
  induction bs with
  | nil => intro url acc calls pf hc _; simp [chainsTo] at hc
  | cons b bs ih =>
      intro url acc calls pf hc hlen
      match pf, hlen with
      | pf + 1, hlen2 =>
          rw [chainsTo] at hc
          cases hget : get (net url) getFuel with
          | none => rw [hget] at hc; simp at hc
          | some p =>
              obtain ⟨o, sleeps⟩ := p
              cases o with
              | unavailable => rw [hget] at hc; simp at hc
              | fatal => rw [hget] at hc; simp at hc
              | ok r =>
                  rw [hget] at hc
                  simp only [Bool.and_eq_true, beq_iff_eq] at hc
                  obtain ⟨hval, hrest⟩ := hc
                  rw [get_json_loop, hget]
                  simp only [hval]
                  cases bs with
                  | nil =>
                      simp only [beq_iff_eq] at hrest
                      rw [hrest, get_json_loop]
                      simp
                  | cons b2 bs2 =>
                      cases hnext : r.jsonNext with
                      | none => rw [hnext] at hrest; simp at hrest
                      | some u =>
                          rw [hnext] at hrest
                          simp only at hrest
                          rw [ih u (acc ++ b) (calls + 1) pf hrest (by
                            simp only [List.length_cons] at hlen2 ⊢
                            omega)]
                          simp [List.append_assoc]
                          omega

/-- C5: the pagination reader raises whenever the `'value'` field is
absent from a response body, follows the continuation link until it is
absent, and returns the concatenation of all item batches in arrival
order — one fetch call per batch. -/
theorem get_json_paginates_and_requires_value :
    (∀ (net : String → Nat → HttpResp) (getFuel pageFuel : Nat) (url : String)
        (r : HttpResp) (sleeps : List Nat),
      get (net url) getFuel = some (GetOut.ok r, sleeps) → r.jsonValue = none →
      get_json net getFuel (pageFuel + 1) url = some (Except.error PyErr.runtimeError))
    ∧ (∀ (net : String → Nat → HttpResp) (getFuel : Nat) (bs : List (List Item))
        (url : String) (pageFuel : Nat),
      chainsTo net getFuel url bs = true → bs.length ≤ pageFuel →
      get_json net getFuel pageFuel url = some (Except.ok (bs.flatten, bs.length))) := by
  constructor
  · intro net getFuel pageFuel url r sleeps hget hval
    unfold get_json
    rw [get_json_loop, hget]
    simp only [hval]
  · intro net getFuel bs url pageFuel hc hlen
    unfold get_json
    rw [get_json_loop_chain net getFuel bs url [] 0 pageFuel hc hlen]
    simp

/-- The j-th batch of ten items of the concrete pagination example. -/
def batch (j : Nat) : List Item :=
  (List.range 10).map (fun i => { title := some (toString (10 * j + i)) })

/-- The concrete three-response chain: each response carries ten items,
the first two carry a continuation link, the last carries none. -/
def net3 : String → Nat → HttpResp := fun url _ =>
  if url = "u0" then { status := 200, jsonValue := some (batch 0), jsonNext := some "u1" }
  else if url = "u1" then { status := 200, jsonValue := some (batch 1), jsonNext := some "u2" }
  else { status := 200, jsonValue := some (batch 2), jsonNext := none }

/-- Witness for C5: a chain of 3 responses of 10 items each yields
exactly the 30 items in arrival order from exactly 3 fetch calls. -/
theorem get_json_pagination_witness :
    chainsTo net3 1 "u0" [batch 0, batch 1, batch 2] = true
    ∧ ([batch 0, batch 1, batch 2].length ≤ 3)
    ∧ get_json net3 1 3 "u0"
        = some (Except.ok (batch 0 ++ batch 1 ++ batch 2, 3))
    ∧ (batch 0 ++ batch 1 ++ batch 2).length = 30 := by
  refine ⟨by decide, by decide, ?_, by decide⟩
  have := get_json_paginates_and_requires_value.2 net3 1 [batch 0, batch 1, batch 2]
    "u0" 3 (by decide) (by decide)
  simpa [List.append_assoc] using this

/-- The glob test applied to an item by `filter_items` (src line 168),
as a Boolean predicate. -/
def matchesSelect (s : String) (it : Item) : Bool :=
  match itemName it with
  | some nm => fnmatch (pyLower nm) (pyLower s)
  | none => false

/-- When every item carries a name, the filtering comprehension succeeds
and returns exactly the glob matches, in order. -/
theorem filterNames_eq_filter (pat : String) :
    ∀ items : List Item, items.all (fun it => (itemName it).isSome) = true →
      filterNames pat items = Except.ok (items.filter (matchesSelect pat)) := by
  intro items
  induction items with
  | nil => intro _; rfl
  | cons it its ih =>
      intro hall
      simp only [List.all_cons, Bool.and_eq_true] at hall
      obtain ⟨hit, hits⟩ := hall
      cases hnm : itemName it with
      | none => rw [hnm] at hit; simp at hit
      | some nm =>
          rw [filterNames, hnm]
          simp only [ih hits]
          have hmap : ∀ (f : List Item → List Item) (x : List Item),
              Except.map f (Except.ok x : Except PyErr (List Item)) = Except.ok (f x) :=
            fun _ _ => rfl
          rw [hmap, List.filter_cons]
          simp [matchesSelect, hnm]

/-- The Work notebook of the concrete selection example. -/
def wkNb : Item :=
  { displayName := some "Work", sectionsUrl := some "wS", sectionGroupsUrl := some "wG" }

/-- The Personal notebook of the concrete selection example. -/
def psNb : Item :=
  { displayName := some "Personal", sectionsUrl := some "pS", sectionGroupsUrl := some "pG" }

/-- C7: with no segments left the filter passes the collection through
unchanged together with the empty selector; otherwise it returns exactly
the items whose name matches the first segment case-insensitively under
glob semantics, consuming that segment; and since `download_notebooks`
filters before its fetch loop, the child endpoints of filtered-out
notebooks are never fetched. -/
theorem filter_items_passthrough_glob_and_prunes_fetches :
    (∀ items : List Item, filter_items items [] = Except.ok (items, []))
    ∧ (∀ (items : List Item) (s : String) (rest : List String),
        items.all (fun it => (itemName it).isSome) = true →
        filter_items items (s :: rest)
          = Except.ok (items.filter (matchesSelect s), rest))
    ∧ (notebook_child_fetches [wkNb, psNb] ["w*"] = Except.ok ["wS", "wG"]
        ∧ (["wS", "wG"] : List String).contains "pS" = false
        ∧ (["wS", "wG"] : List String).contains "pG" = false) := by
  refine ⟨fun items => rfl, ?_, ⟨rfl, rfl, rfl⟩⟩
  intro items s rest hall
  have hdef : filter_items items (s :: rest)
      = (filterNames s items).map (fun l => (l, rest)) := rfl
  rw [hdef, filterNames_eq_filter s items hall]
  rfl

/-- Witness for C7: filtering `["Work", "Personal"]` with `"w*"` keeps
exactly the Work notebook and consumes the segment. -/
theorem filter_items_glob_witness :
    ([wkNb, psNb].all (fun it => (itemName it).isSome) = true)
    ∧ filter_items [wkNb, psNb] ["w*"]
        = Except.ok ([wkNb, psNb].filter (matchesSelect "w*"), [])
    ∧ [wkNb, psNb].filter (matchesSelect "w*") = [wkNb] := by
  refine ⟨by decide, ?_, by decide⟩
  exact filter_items_passthrough_glob_and_prunes_fetches.2.1 [wkNb, psNb] "w*" [] (by decide)

/-- The filename sanitizer removes the path separator. -/
theorem sanitize_filename_no_slash (s : String) :
    ¬ '/' ∈ (sanitize_filename s).toList := by
  intro hmem
  have : (sanitize_filename s).toList = s.toList.filter
      (fun c => decide (¬ c ∈ invalidFilenameChars)) := rfl
  rw [this] at hmem
  have := (List.mem_filter.mp hmem).2
  simp [invalidFilenameChars] at this

/-- The filepath sanitizer introduces no new characters. -/
theorem sanitize_filepath_subset (s : String) {c : Char}
    (h : c ∈ (sanitize_filepath s).toList) : c ∈ s.toList := by
  have : (sanitize_filepath s).toList = s.toList.filter
      (fun c => decide (¬ c ∈ invalidFilepathChars)) := rfl
  rw [this] at h
  exact (List.mem_filter.mp h).1

/-- C2 (amended): only page titles are sanitized before use as path
segments (and the sanitized title indeed contains no separator, whatever
the remote sent); notebook, section-group and section display names are
used verbatim with their kind suffix appended, so a name containing a
path separator produces an unsanitized, invalid segment. -/
theorem only_page_titles_are_sanitized :
    (∀ title : String, ¬ '/' ∈ (page_title_sanitized title).toList)
    ∧ ('/' ∈ (notebook_dir_segment "a/b").toList)
    ∧ ('/' ∈ (section_group_dir_segment "a/b").toList)
    ∧ ('/' ∈ (section_dir_segment "a/b").toList) := by
  refine ⟨?_, by decide, by decide, by decide⟩
  intro title hmem
  exact sanitize_filename_no_slash title (sanitize_filepath_subset _ hmem)

/-- Refutation of C2 as stated: the notebook display name `"a/b"` is used
as a path segment without passing through sanitization — its segment still
contains the separator, while the sanitizers would have removed it (as the
page-title path does). -/
theorem raw_notebook_segment_counterexample :
    notebook_dir_segment "a/b" = "a/b.SECTIONS"
    ∧ ('/' ∈ (notebook_dir_segment "a/b").toList)
    ∧ page_title_sanitized "a/b" = "ab"
    ∧ notebook_dir_segment "a/b" ≠ page_title_sanitized "a/b" ++ ".SECTIONS" := by
  exact ⟨rfl, by decide, by decide, by decide⟩

/-- Witness for C2 (amended): the sanitized page title of `"a/b"` carries
no separator. -/
theorem sanitized_title_witness :
    ¬ '/' ∈ (page_title_sanitized "a/b").toList :=
  only_page_titles_are_sanitized.1 "a/b"

/-- After writing a file, it exists. -/
theorem FS.hasFile_writeFile (fs : FS) (p c : String) :
    (fs.writeFile p c).hasFile p = true := by
  unfold FS.writeFile
  by_cases h : fs.hasFile p = true
  · rw [if_pos h]
    unfold FS.hasFile at h ⊢
    simp only [List.any_eq_true] at h ⊢
    obtain ⟨f, hf, hfp⟩ := h
    refine ⟨(p, c), List.mem_map.mpr ⟨f, hf, ?_⟩, by simp⟩
    simp only [decide_eq_true_eq] at hfp
    rw [if_pos (by simpa using hfp)]
  · rw [if_neg h]
    unfold FS.hasFile
    simp

/-- C4: if the target `dir/title.html` already exists, the materializer
skips entirely — no fetch, no write; consequently a second materialization
of a page whose first run succeeded changes nothing and performs zero
fetch calls. -/
theorem download_page_skip_if_exists_idempotent :
    (∀ (cf : GetOut) (render : String → String)
        (attach : FS → String → FS × String × Nat)
        (path : List String) (title : String) (fs : FS),
      fs.hasFile (joinPath (path ++ [title ++ ".html"])) = true →
      download_page cf render attach path title fs = Except.ok (fs, 0))
    ∧ (∀ (r : HttpResp) (render : String → String)
        (attach : FS → String → FS × String × Nat)
        (path : List String) (title : String) (fs fs1 : FS) (n : Nat),
      download_page (GetOut.ok r) render attach path title fs = Except.ok (fs1, n) →
      download_page (GetOut.ok r) render attach path title fs1 = Except.ok (fs1, 0)) := by
  have hskip : ∀ (cf : GetOut) (render : String → String)
      (attach : FS → String → FS × String × Nat)
      (path : List String) (title : String) (fs : FS),
      fs.hasFile (joinPath (path ++ [title ++ ".html"])) = true →
      download_page cf render attach path title fs = Except.ok (fs, 0) := by
    intro cf render attach path title fs hyes
    unfold download_page
    simp only [hyes, if_true]
  refine ⟨hskip, ?_⟩
  intro r render attach path title fs fs1 n hfirst
  by_cases h : fs.hasFile (joinPath (path ++ [title ++ ".html"])) = true
  · rw [hskip _ render attach path title fs h] at hfirst
    cases hfirst
    exact hskip _ render attach path title fs h
  · unfold download_page at hfirst
    rw [if_neg h] at hfirst
    simp only [] at hfirst
    cases hfirst
    exact hskip _ render attach path title _ (FS.hasFile_writeFile _ _ _)

/-- Witness for C4: a concrete page is materialized once (one fetch, file
written); the second materialization returns the same file tree with zero
fetches. -/
theorem download_page_idempotent_witness :
    download_page (GetOut.ok { status := 200, body := "B" }) (fun s => s)
        (fun fs c => (fs, c, 0)) ["d"] "t" {}
      = Except.ok ({ files := [("d/t.html", "B")], dirs := ["d"] }, 1)
    ∧ download_page (GetOut.ok { status := 200, body := "B" }) (fun s => s)
        (fun fs c => (fs, c, 0)) ["d"] "t" { files := [("d/t.html", "B")], dirs := ["d"] }
      = Except.ok ({ files := [("d/t.html", "B")], dirs := ["d"] }, 0) := by
  have h1 : download_page (GetOut.ok { status := 200, body := "B" }) (fun s => s)
      (fun fs c => (fs, c, 0)) ["d"] "t" {}
      = Except.ok ({ files := [("d/t.html", "B")], dirs := ["d"] }, 1) := rfl
  exact ⟨h1, download_page_skip_if_exists_idempotent.2 _ _ _ _ _ _ _ _ h1⟩

/-- The exists-gate of `download_image` (src lines 116-117, 127-129):
when the derived file already exists, no fetch happens, the filesystem is
untouched, and the tag is rewritten to the local path. -/
theorem download_image_gate (fetch : String → Option String)
    (extractId : String → String) (out_dir dir_name : String) (fs : FS)
    (tag : Tag) (url fn : String)
    (hf : image_fields extractId tag = Except.ok (url, fn))
    (hyes : fs.hasFile (out_dir ++ "/" ++ dir_name ++ "/" ++ fn) = true) :
    download_image fetch extractId out_dir dir_name fs tag
      = Except.ok (fs, TagResult.imgTag (imageProps tag.props dir_name fn), 0) := by
  unfold download_image
  rw [hf]
  simp only [hyes, if_true]

/-- The exists-gate of `download_attachment` (src lines 139-140, 151-152). -/
theorem download_attachment_gate (fetch : String → Option String)
    (out_dir dir_name : String) (fs : FS) (tag : Tag) (url fn : String)
    (hd : dictGet tag.props "data" = some url)
    (hda : dictGet tag.props "data-attachment" = some fn)
    (hyes : fs.hasFile (out_dir ++ "/" ++ dir_name ++ "/" ++ fn) = true) :
    download_attachment fetch out_dir dir_name fs tag
      = Except.ok (fs,
          TagResult.objectTag (dictSet tag.props "data" (dir_name ++ "/" ++ fn)), 0) := by
  unfold download_attachment
  rw [hd, hda]
  simp only [hyes, if_true]

/-- A successful `download_image` on a missing file: one fetch, the
directory is created, the file written, the tag rewritten. -/
theorem download_image_success (fetch : String → Option String)
    (extractId : String → String) (out_dir dir_name : String) (fs : FS)
    (tag : Tag) (url fn img : String)
    (hf : image_fields extractId tag = Except.ok (url, fn))
    (hno : fs.hasFile (out_dir ++ "/" ++ dir_name ++ "/" ++ fn) = false)
    (hfetch : fetch url = some img) :
    download_image fetch extractId out_dir dir_name fs tag
      = Except.ok ((fs.mkdir (out_dir ++ "/" ++ dir_name)).writeFile
            (out_dir ++ "/" ++ dir_name ++ "/" ++ fn) img,
          TagResult.imgTag (imageProps tag.props dir_name fn), 1) := by
  unfold download_image
  rw [hf]
  simp only [hno, Bool.false_eq_true, if_false, hfetch]

/-- A successful `download_attachment` on a missing file. -/
theorem download_attachment_success (fetch : String → Option String)
    (out_dir dir_name : String) (fs : FS) (tag : Tag) (url fn data : String)
    (hd : dictGet tag.props "data" = some url)
    (hda : dictGet tag.props "data-attachment" = some fn)
    (hno : fs.hasFile (out_dir ++ "/" ++ dir_name ++ "/" ++ fn) = false)
    (hfetch : fetch url = some data) :
    download_attachment fetch out_dir dir_name fs tag
      = Except.ok ((fs.mkdir (out_dir ++ "/" ++ dir_name)).writeFile
            (out_dir ++ "/" ++ dir_name ++ "/" ++ fn) data,
          TagResult.objectTag (dictSet tag.props "data" (dir_name ++ "/" ++ fn)), 1) := by
  unfold download_attachment
  rw [hd, hda]
  simp only [hno, Bool.false_eq_true, if_false, hfetch]

/-- C8: a reference whose derived local file already exists triggers no
download and only rewrites the reference to the local relative path (for
images and objects alike); consequently two references deriving the same
file name in the same attachment directory cause exactly one download. -/
theorem attachment_exists_gate_and_dedup :
    (∀ (fetch : String → Option String) (extractId : String → String)
        (out_dir dir_name : String) (fs : FS) (tag : Tag) (url fn : String),
      image_fields extractId tag = Except.ok (url, fn) →
      fs.hasFile (out_dir ++ "/" ++ dir_name ++ "/" ++ fn) = true →
      download_image fetch extractId out_dir dir_name fs tag
        = Except.ok (fs, TagResult.imgTag (imageProps tag.props dir_name fn), 0))
    ∧ (∀ (fetch : String → Option String) (out_dir dir_name : String)
        (fs : FS) (tag : Tag) (url fn : String),
      dictGet tag.props "data" = some url →
      dictGet tag.props "data-attachment" = some fn →
      fs.hasFile (out_dir ++ "/" ++ dir_name ++ "/" ++ fn) = true →
      download_attachment fetch out_dir dir_name fs tag
        = Except.ok (fs,
            TagResult.objectTag (dictSet tag.props "data" (dir_name ++ "/" ++ fn)), 0))
    ∧ (∀ (fetch : String → Option String) (extractId : String → String)
        (out_dir dir_name : String) (fs : FS) (t1 t2 : Tag) (u1 u2 fn img : String),
      image_fields extractId t1 = Except.ok (u1, fn) →
      image_fields extractId t2 = Except.ok (u2, fn) →
      fs.hasFile (out_dir ++ "/" ++ dir_name ++ "/" ++ fn) = false →
      fetch u1 = some img →
      download_images fetch extractId out_dir dir_name fs [t1, t2]
        = Except.ok ((fs.mkdir (out_dir ++ "/" ++ dir_name)).writeFile
              (out_dir ++ "/" ++ dir_name ++ "/" ++ fn) img,
            [TagResult.imgTag (imageProps t1.props dir_name fn),
             TagResult.imgTag (imageProps t2.props dir_name fn)], 1))
    ∧ (∀ (fetch : String → Option String) (out_dir dir_name : String)
        (fs : FS) (t1 t2 : Tag) (u1 u2 fn data : String),
      dictGet t1.props "data" = some u1 →
      dictGet t1.props "data-attachment" = some fn →
      dictGet t2.props "data" = some u2 →
      dictGet t2.props "data-attachment" = some fn →
      fs.hasFile (out_dir ++ "/" ++ dir_name ++ "/" ++ fn) = false →
      fetch u1 = some data →
      download_objects fetch out_dir dir_name fs [t1, t2]
        = Except.ok ((fs.mkdir (out_dir ++ "/" ++ dir_name)).writeFile
              (out_dir ++ "/" ++ dir_name ++ "/" ++ fn) data,
            [TagResult.objectTag (dictSet t1.props "data" (dir_name ++ "/" ++ fn)),
             TagResult.objectTag (dictSet t2.props "data" (dir_name ++ "/" ++ fn))], 1)) := by
  refine ⟨download_image_gate, download_attachment_gate, ?_, ?_⟩
  · intro fetch extractId out_dir dir_name fs t1 t2 u1 u2 fn img hf1 hf2 hno hfetch
    have h1 := download_image_success fetch extractId out_dir dir_name fs t1 u1 fn img
      hf1 hno hfetch
    have h2 := download_image_gate fetch extractId out_dir dir_name
      ((fs.mkdir (out_dir ++ "/" ++ dir_name)).writeFile
        (out_dir ++ "/" ++ dir_name ++ "/" ++ fn) img) t2 u2 fn hf2
      (FS.hasFile_writeFile _ _ _)
    simp only [download_images, h1, h2]
  · intro fetch out_dir dir_name fs t1 t2 u1 u2 fn data hd1 hda1 hd2 hda2 hno hfetch
    have h1 := download_attachment_success fetch out_dir dir_name fs t1 u1 fn data
      hd1 hda1 hno hfetch
    have h2 := download_attachment_gate fetch out_dir dir_name
      ((fs.mkdir (out_dir ++ "/" ++ dir_name)).writeFile
        (out_dir ++ "/" ++ dir_name ++ "/" ++ fn) data) t2 u2 fn hd2 hda2
      (FS.hasFile_writeFile _ _ _)
    simp only [download_objects, h1, h2]

/-- The image tag of the attachment examples. -/
def imgTagEx : Tag :=
  { original := "<img src=u1 />", props := [("src", "u1"), ("data-src-type", "image/png")] }

/-- A second image tag deriving the same local file name. -/
def imgTagEx2 : Tag :=
  { original := "<img src=u2 />",
    props := [("src", "u2"), ("data-src-type", "image/png"), ("width", "6")] }

/-- Witness for C8: two image references deriving the same file name
(`id.png`) are resolved with exactly one download. -/
theorem attachment_dedup_witness :
    image_fields (fun _ => "id") imgTagEx = Except.ok ("u1", "id.png")
    ∧ image_fields (fun _ => "id") imgTagEx2 = Except.ok ("u2", "id.png")
    ∧ FS.hasFile {} ("o" ++ "/" ++ "p.FILES" ++ "/" ++ "id.png") = false
    ∧ (fun u => if u = "u1" then some "IMG" else none) "u1" = some "IMG"
    ∧ download_images (fun u => if u = "u1" then some "IMG" else none) (fun _ => "id")
        "o" "p.FILES" {} [imgTagEx, imgTagEx2]
      = Except.ok ((FS.mkdir {} ("o" ++ "/" ++ "p.FILES")).writeFile
            ("o" ++ "/" ++ "p.FILES" ++ "/" ++ "id.png") "IMG",
          [TagResult.imgTag (imageProps imgTagEx.props "p.FILES" "id.png"),
           TagResult.imgTag (imageProps imgTagEx2.props "p.FILES" "id.png")], 1) :=
  ⟨rfl, rfl, rfl, rfl,
    attachment_exists_gate_and_dedup.2.2.1 _ _ "o" "p.FILES" {} imgTagEx imgTagEx2
      "u1" "u2" "id.png" "IMG" rfl rfl rfl rfl⟩

/-- C9: when the binary fetch of an embedded image or object reference is
unavailable, the resolver returns the original tag text unmodified and
leaves the filesystem untouched — in particular the attachment directory
is not created. -/
theorem unavailable_attachment_left_unmodified :
    (∀ (fetch : String → Option String) (extractId : String → String)
        (out_dir dir_name : String) (fs : FS) (tag : Tag) (url fn : String),
      image_fields extractId tag = Except.ok (url, fn) →
      fs.hasFile (out_dir ++ "/" ++ dir_name ++ "/" ++ fn) = false →
      fetch url = none →
      download_image fetch extractId out_dir dir_name fs tag
        = Except.ok (fs, TagResult.unchanged tag.original, 1))
    ∧ (∀ (fetch : String → Option String) (out_dir dir_name : String)
        (fs : FS) (tag : Tag) (url fn : String),
      dictGet tag.props "data" = some url →
      dictGet tag.props "data-attachment" = some fn →
      fs.hasFile (out_dir ++ "/" ++ dir_name ++ "/" ++ fn) = false →
      fetch url = none →
      download_attachment fetch out_dir dir_name fs tag
        = Except.ok (fs, TagResult.unchanged tag.original, 1)) := by
  constructor
  · intro fetch extractId out_dir dir_name fs tag url fn hf hno hfetch
    unfold download_image
    rw [hf]
    simp only [hno, Bool.false_eq_true, if_false, hfetch]
  · intro fetch out_dir dir_name fs tag url fn hd hda hno hfetch
    unfold download_attachment
    rw [hd, hda]
    simp only [hno, Bool.false_eq_true, if_false, hfetch]

/-- Witness for C9: an unavailable image fetch returns the original tag
text and an unchanged (empty) filesystem: no directory was created. -/
theorem unavailable_attachment_witness :
    image_fields (fun _ => "id") imgTagEx = Except.ok ("u1", "id.png")
    ∧ FS.hasFile {} ("o" ++ "/" ++ "p.FILES" ++ "/" ++ "id.png") = false
    ∧ (fun _ : String => (none : Option String)) "u1" = none
    ∧ download_image (fun _ => none) (fun _ => "id") "o" "p.FILES" {} imgTagEx
        = Except.ok ({}, TagResult.unchanged "<img src=u1 />", 1)
    ∧ (FS.dirs {}) = ([] : List String) :=
  ⟨rfl, rfl, rfl,
    unavailable_attachment_left_unmodified.1 _ _ "o" "p.FILES" {} imgTagEx
      "u1" "id.png" rfl rfl rfl, rfl⟩

/-- Inserting a keyed page whose key ties with no existing key succeeds
and yields a sorted permutation. -/
theorem insertKeyed_ok (x : Int × Item) :
    ∀ ys : List (Int × Item), (∀ y ∈ ys, x.1 ≠ y.1) →
      ∃ zs, insertKeyed x ys = Except.ok zs ∧ zs.Perm (x :: ys)
        ∧ (ys.Sorted (fun a b : Int × Item => a.1 ≤ b.1) →
           zs.Sorted (fun a b : Int × Item => a.1 ≤ b.1)) := by
  intro ys
  induction ys with
  | nil =>
      intro _
      exact ⟨[x], rfl, List.Perm.refl _, fun _ => List.sorted_singleton x⟩
  | cons y ys ih =>
      intro hne
      have hxy : x.1 ≠ y.1 := hne y (List.mem_cons_self y ys)
      have hc : cmpKeyed x y = Except.ok (decide (x.1 < y.1)) := by
        unfold cmpKeyed
        rw [if_neg hxy]
      by_cases hlt : x.1 < y.1
      · refine ⟨x :: y :: ys, ?_, List.Perm.refl _, ?_⟩
        · rw [insertKeyed, hc, decide_eq_true hlt]
        · intro hsort
          rw [List.sorted_cons]
          refine ⟨?_, hsort⟩
          intro b hb
          rcases List.mem_cons.mp hb with hby | hbin
          · subst hby
            exact le_of_lt hlt
          · have hyb := (List.sorted_cons.mp hsort).1 b hbin
            exact le_trans (le_of_lt hlt) hyb
      · have hyx : y.1 ≤ x.1 := le_of_not_lt hlt
        have hne2 : ∀ z ∈ ys, x.1 ≠ z.1 := fun z hz => hne z (List.mem_cons_of_mem y hz)
        obtain ⟨zs, hz, hperm, hsorted⟩ := ih hne2
        refine ⟨y :: zs, ?_, ?_, ?_⟩
        · rw [insertKeyed, hc, decide_eq_false hlt, hz]
        · exact (hperm.cons y).trans (List.Perm.swap x y ys)
        · intro hsort
          rw [List.sorted_cons] at hsort
          obtain ⟨hyall, hys⟩ := hsort
          rw [List.sorted_cons]
          refine ⟨?_, hsorted hys⟩
          intro b hb
          rcases List.mem_cons.mp (hperm.subset hb) with hbx | hbin
          · subst hbx
            exact hyx
          · exact hyall b hbin

/-- Sorting the keyed pages succeeds when all orders are pairwise
distinct, and then yields an order-ascending permutation. -/
theorem sortKeyed_ok :
    ∀ l : List (Int × Item), l.Pairwise (fun a b : Int × Item => a.1 ≠ b.1) →
      ∃ s, sortKeyed l = Except.ok s ∧ s.Perm l
        ∧ s.Sorted (fun a b : Int × Item => a.1 ≤ b.1) := by
  intro l
  induction l with
  | nil => intro _; exact ⟨[], rfl, List.Perm.refl _, List.sorted_nil⟩
  | cons x xs ih =>
      intro hp
      rw [List.pairwise_cons] at hp
      obtain ⟨hx, hxs⟩ := hp
      obtain ⟨s, hs, hperm, hsort⟩ := ih hxs
      have hne : ∀ y ∈ s, x.1 ≠ y.1 := fun y hy => hx y (hperm.subset hy)
      obtain ⟨zs, hz, hzperm, hzsort⟩ := insertKeyed_ok x s hne
      refine ⟨zs, ?_, (hzperm.trans (hperm.cons x)), hzsort hsort⟩
      rw [sortKeyed, hs]
      exact hz

/-- Building the `(order, page)` pairs succeeds when every page carries
an `order` key, and records exactly those keys. -/
theorem keyPages_ok :
    ∀ pages : List Item, pages.all (fun p => p.order.isSome) = true →
      ∃ keyed, keyPages pages = Except.ok keyed
        ∧ keyed.map (fun kp => kp.2) = pages
        ∧ ∀ kp ∈ keyed, kp.2.order = some kp.1 := by
  intro pages
  induction pages with
  | nil => intro _; exact ⟨[], rfl, rfl, by simp⟩
  | cons p ps ih =>
      intro hall
      simp only [List.all_cons, Bool.and_eq_true] at hall
      obtain ⟨hp, hps⟩ := hall
      cases ho : p.order with
      | none => rw [ho] at hp; simp at hp
      | some o =>
          obtain ⟨keyed, hk, hmap, hprop⟩ := ih hps
          refine ⟨(o, p) :: keyed, ?_, by simp [hmap], ?_⟩
          · rw [keyPages, ho, hk]
          · intro kp hkp
            rcases List.mem_cons.mp hkp with h | h
            · subst h
              exact ho
            · exact hprop kp h

/-- The level-0 page of the concrete nesting example. -/
def pRoot : Item := { title := some "Root", order := some 1, level := some 0 }

/-- The level-1 page of the concrete nesting example. -/
def pChild : Item := { title := some "Child", order := some 2, level := some 1 }

/-- The level-2 page of the concrete nesting example. -/
def pGrand : Item := { title := some "Grand", order := some 3, level := some 2 }

/-- C3: with distinct orders, the walker performs one global
order-ascending sort of the whole collection and then processes pages in
that order through the anchor walk; in particular the pages Root/Child/
Grand (orders 1/2/3, levels 0/1/2, given out of order) materialize at
`Root.html`, `Root.NOTES/Child.html` and `Root.NOTES/Child.NOTES/Grand.html`. -/
theorem download_pages_global_sort_then_anchor_walk :
    (∀ (pages : List Item) (base : List String),
      pages.all (fun p => p.order.isSome) = true →
      pages.Pairwise (fun p q : Item => p.order ≠ q.order) →
      ∃ sortedKeyed : List (Int × Item),
        (sortedKeyed.map (fun kp => kp.2)).Perm pages
        ∧ sortedKeyed.Sorted (fun a b : Int × Item => a.1 ≤ b.1)
        ∧ (∀ kp ∈ sortedKeyed, kp.2.order = some kp.1)
        ∧ download_pages pages base []
            = walkPages base {} (sortedKeyed.map (fun kp => kp.2)))
    ∧ download_pages [pChild, pGrand, pRoot] [] []
        = Except.ok [([], "Root"), (["Root.NOTES"], "Child"),
            (["Root.NOTES", "Child.NOTES"], "Grand")]
    ∧ (joinPath ([] ++ ["Root" ++ ".html"]) = "Root.html"
        ∧ joinPath (["Root.NOTES"] ++ ["Child" ++ ".html"]) = "Root.NOTES/Child.html"
        ∧ joinPath (["Root.NOTES", "Child.NOTES"] ++ ["Grand" ++ ".html"])
            = "Root.NOTES/Child.NOTES/Grand.html") := by
  refine ⟨?_, rfl, rfl, rfl, rfl⟩
  intro pages base hall hpw
  obtain ⟨keyed, hk, hmap, hprop⟩ := keyPages_ok pages hall
  have hpwk : keyed.Pairwise (fun a b : Int × Item => a.1 ≠ b.1) := by
    have hmapped : (keyed.map (fun kp => kp.2)).Pairwise
        (fun p q : Item => p.order ≠ q.order) := by rw [hmap]; exact hpw
    rw [List.pairwise_map] at hmapped
    refine List.Pairwise.imp_of_mem ?_ hmapped
    intro a b ha hb hR heq
    apply hR
    rw [hprop a ha, hprop b hb, heq]
  obtain ⟨s, hs, hsperm, hssort⟩ := sortKeyed_ok keyed hpwk
  refine ⟨s, ?_, hssort, ?_, ?_⟩
  · have hmapperm := hsperm.map (fun kp : Int × Item => kp.2)
    rwa [hmap] at hmapperm
  · intro kp hkp
    exact hprop kp (hsperm.subset hkp)
  · have hstart : download_pages pages base []
        = (match keyPages pages with
           | Except.error e => Except.error e
           | Except.ok keyed =>
              match sortKeyed keyed with
              | Except.error e => Except.error e
              | Except.ok sk => walkPages base {} (sk.map (fun kp => kp.2))) := rfl
    rw [hstart]
    simp only [hk, hs]

/-- Witness for C3: the general sort-then-walk lemma applied to the
concrete Root/Child/Grand collection given out of order. -/
theorem download_pages_global_sort_witness :
    ([pChild, pGrand, pRoot].all (fun p => p.order.isSome) = true)
    ∧ [pChild, pGrand, pRoot].Pairwise (fun p q : Item => p.order ≠ q.order)
    ∧ ∃ sortedKeyed : List (Int × Item),
        (sortedKeyed.map (fun kp => kp.2)).Perm [pChild, pGrand, pRoot]
        ∧ sortedKeyed.Sorted (fun a b : Int × Item => a.1 ≤ b.1)
        ∧ (∀ kp ∈ sortedKeyed, kp.2.order = some kp.1)
        ∧ download_pages [pChild, pGrand, pRoot] [] []
            = walkPages [] {} (sortedKeyed.map (fun kp => kp.2)) := by
  refine ⟨by decide, by decide, ?_⟩
  exact download_pages_global_sort_then_anchor_walk.1 [pChild, pGrand, pRoot] []
    (by decide) (by decide)

/-- The first page of the equal-order pair. -/
def pDupA : Item := { title := some "A", order := some 1, level := some 0 }

/-- The second page of the equal-order pair. -/
def pDupB : Item := { title := some "B", order := some 1, level := some 0 }

/-- C10: the global sort on `(order, page)` tuples is well-defined when
all orders are pairwise distinct; on an input with two equal orders the
tuple comparison falls through to the page records and the operation
raises `TypeError` instead of producing an output. -/
theorem equal_orders_make_sort_raise :
    (∀ keyed : List (Int × Item), keyed.Pairwise (fun a b : Int × Item => a.1 ≠ b.1) →
      ∃ s, sortKeyed keyed = Except.ok s)
    ∧ cmpKeyed (1, pDupA) (1, pDupB) = Except.error PyErr.typeError
    ∧ download_pages [pDupA, pDupB] [] [] = Except.error PyErr.typeError := by
  refine ⟨?_, rfl, rfl⟩
  intro keyed hpw
  obtain ⟨s, hs, _, _⟩ := sortKeyed_ok keyed hpw
  exact ⟨s, hs⟩

/-- Witness for C10: with distinct orders the sort of the same pages
succeeds. -/
theorem equal_orders_sort_witness :
    ([((1 : Int), pDupA), ((2 : Int), pDupB)].Pairwise
        (fun a b : Int × Item => a.1 ≠ b.1))
    ∧ ∃ s, sortKeyed [((1 : Int), pDupA), ((2 : Int), pDupB)] = Except.ok s :=
  ⟨by decide, equal_orders_make_sort_raise.1 _ (by decide)⟩

end OneNote
